import Mathlib

/-!
Verification of the core of the Buffon's Needle simulation (`main.py`):
the needle hit tester `TheoreticalNeedle.hit`, the needle generator
`TheoreticalNeedle.__init__`, the rate controller `get_rates`, and the
hit/drop counters of the driving loop `main`.

Modelling conventions:
- Python floats are modelled as exact rational numbers (`ℚ`) where only
  field arithmetic and comparisons occur (hit testing, the rate
  controller's divisions and truncations), and as real numbers (`ℝ`)
  where trigonometric functions occur (needle endpoint placement).
- Python's unbounded `int` is modelled as `ℤ`.
- Fallible computations are modelled with explicit outcome types: the
  hit tester returns a `HitResult` whose `zeroDivisionError` constructor
  stands for an uncaught Python `ZeroDivisionError`, and the float power
  `default_target_fps ** e` inside `get_rates` is modelled by an oracle
  `ℚ → PowOutcome` whose `overflow` constructor stands for a raised
  `OverflowError` (every finite IEEE double is a rational number, so the
  finite outcome carries a `ℚ`).
-/

/-- The `Cords` named tuple of `main.py`: a pair of coordinates.
Rational coordinates model the Python floats exactly. -/
structure Cords where
  x : ℚ
  y : ℚ
deriving DecidableEq, Repr

/-- The geometric data of `TheoreticalNeedle` that its `hit` property
reads: the two endpoints `point1` and `point2` (set in `__init__`). -/
structure TheoreticalNeedle where
  point1 : Cords
  point2 : Cords
deriving DecidableEq, Repr

/-- The loop condition of `TheoreticalNeedle.hit` for one column value:
`(point1.x <= c <= point2.x) or (point1.x >= c >= point2.x)`. -/
def column_matches (n : TheoreticalNeedle) (c : ℚ) : Prop :=
  (n.point1.x ≤ c ∧ c ≤ n.point2.x) ∨ (n.point1.x ≥ c ∧ c ≥ n.point2.x)

instance (n : TheoreticalNeedle) (c : ℚ) : Decidable (column_matches n c) := by
  unfold column_matches
  exact inferInstance

/-- Outcome of evaluating the `hit` property: `miss` models a `None`
return, `point` models a returned `Cords`, and `zeroDivisionError`
models the uncaught `ZeroDivisionError` raised by the slope division
when `point2.x - point1.x == 0`. -/
inductive HitResult where
  | zeroDivisionError : HitResult
  | miss : HitResult
  | point : Cords → HitResult
deriving DecidableEq, Repr

/-- The slope/intercept computation following the `for` loop in
`TheoreticalNeedle.hit`, reached once `column_value` matched; raises
(returns `zeroDivisionError`) exactly when the denominator is zero. -/
def hit_at_column (n : TheoreticalNeedle) (column_value : ℚ) : HitResult :=
  if n.point2.x - n.point1.x = 0 then
    HitResult.zeroDivisionError
  else
    let slope := (n.point2.y - n.point1.y) / (n.point2.x - n.point1.x)
    let y_int := n.point1.y - slope * n.point1.x
    HitResult.point ⟨column_value, slope * column_value + y_int⟩

/-- The `hit` property of `TheoreticalNeedle`: scan `column_values` in
order for the first matching column (`for ... break`), returning `miss`
(`None`) from the `else` clause when none matches, and otherwise the
intercept of the needle's line with that column. -/
def hit (n : TheoreticalNeedle) (column_values : List ℚ) : HitResult :=
  match column_values with
  | [] => HitResult.miss
  | c :: rest => if column_matches n c then hit_at_column n c else hit n rest

/-- A hit is never a miss once some column matched. -/
theorem hit_at_column_ne_miss (n : TheoreticalNeedle) (c : ℚ) :
    hit_at_column n c ≠ HitResult.miss := by
  unfold hit_at_column
  split <;> simp

/-- Characterisation of the `miss` outcome: the scan returns `None`
exactly when no column value satisfies the interval test. -/
theorem hit_eq_miss_iff (n : TheoreticalNeedle) (cols : List ℚ) :
    hit n cols = HitResult.miss ↔ ∀ c ∈ cols, ¬ column_matches n c := by
  induction cols with
  | nil => simp [hit]
  | cons c rest ih =>
    unfold hit
    by_cases hc : column_matches n c
    · simp [hc, hit_at_column_ne_miss]
    · simp [hc, ih]

/-- The code's per-column test agrees with the closed interval between
the two endpoint x-values, under either ordering of the endpoints. -/
theorem column_matches_iff_mem_uIcc (n : TheoreticalNeedle) (c : ℚ) :
    column_matches n c ↔ c ∈ Set.uIcc n.point1.x n.point2.x := by
  rw [Set.mem_uIcc]
  unfold column_matches
  constructor
  · rintro (⟨h1, h2⟩ | ⟨h1, h2⟩)
    · exact Or.inl ⟨h1, h2⟩
    · exact Or.inr ⟨h2, h1⟩
  · rintro (⟨h1, h2⟩ | ⟨h1, h2⟩)
    · exact Or.inl ⟨h1, h2⟩
    · exact Or.inr ⟨h2, h1⟩

/-- Claim C2: for every needle and every column set, `hit` returns
`None` (a miss) if and only if no column x-value lies within the closed
interval between `point1.x` and `point2.x`, under either ordering of
the two endpoints. -/
theorem hit_miss_iff_no_column_in_closed_range
    (n : TheoreticalNeedle) (cols : List ℚ) :
    hit n cols = HitResult.miss ↔
      ¬ ∃ c ∈ cols, c ∈ Set.uIcc n.point1.x n.point2.x := by
  rw [hit_eq_miss_iff]
  push_neg
  exact forall₂_congr fun c _ => (column_matches_iff_mem_uIcc n c).not

/-- Claim C3: when `hit` returns a point, its x-coordinate is the first
column value (in column order) matching the interval test, and the
point is collinear with the two endpoints. -/
theorem hit_point_first_match_and_collinear
    (n : TheoreticalNeedle) (cols : List ℚ) (p : Cords)
    (h : hit n cols = HitResult.point p) :
    cols.find? (fun c => decide (column_matches n c)) = some p.x ∧
      (p.y - n.point1.y) * (n.point2.x - n.point1.x) =
        (n.point2.y - n.point1.y) * (p.x - n.point1.x) := by
  induction cols with
  | nil => simp [hit] at h
  | cons c rest ih =>
    unfold hit at h
    by_cases hc : column_matches n c
    · rw [if_pos hc] at h
      unfold hit_at_column at h
      by_cases hden : n.point2.x - n.point1.x = 0
      · rw [if_pos hden] at h
        exact absurd h (by simp)
      · rw [if_neg hden] at h
        simp only [HitResult.point.injEq] at h
        subst h
        refine ⟨by simp [List.find?, hc], ?_⟩
        field_simp
        ring
    · rw [if_neg hc] at h
      have := ih h
      simpa [List.find?, hc] using this

/-- Claim C3 witness: a concrete diagonal needle from the origin to
(10, 10) over the single column x = 5 hits at (5, 5). -/
theorem hit_point_first_match_and_collinear_witness :
    List.find?
        (fun c =>
          decide (column_matches ⟨⟨0, 0⟩, ⟨10, 10⟩⟩ c)) [(5 : ℚ)] =
        some (Cords.mk 5 5).x ∧
      ((Cords.mk 5 5).y - (0 : ℚ)) * ((10 : ℚ) - 0) =
        ((10 : ℚ) - 0) * ((Cords.mk 5 5).x - 0) :=
  hit_point_first_match_and_collinear ⟨⟨0, 0⟩, ⟨10, 10⟩⟩ [5] ⟨5, 5⟩
    (by norm_num [hit, hit_at_column, column_matches])

/-- Claim C1 counterexample: a perfectly vertical needle at x = 0 over
the column set containing 0 makes `hit` raise `ZeroDivisionError`
rather than being treated as a miss, refuting the claim that a vertical
needle never raises a fatal division-by-zero. -/
theorem vertical_needle_zero_division_counterexample :
    hit ⟨⟨0, 0⟩, ⟨0, 10⟩⟩ [(0 : ℚ)] = HitResult.zeroDivisionError ∧
      hit ⟨⟨0, 0⟩, ⟨0, 10⟩⟩ [(0 : ℚ)] ≠ HitResult.miss := by
  constructor <;> simp [hit, hit_at_column, column_matches]

/-- Claim C1 amended: a vertical needle (equal endpoint x-values)
misses, with no division performed, whenever its x-value is not among
the columns; when some column equals its x-value, `hit` raises an
uncaught `ZeroDivisionError`. -/
theorem vertical_needle_hit_behavior
    (n : TheoreticalNeedle) (cols : List ℚ)
    (hv : n.point1.x = n.point2.x) :
    (n.point1.x ∉ cols → hit n cols = HitResult.miss) ∧
      (n.point1.x ∈ cols → hit n cols = HitResult.zeroDivisionError) := by
  have hmatch : ∀ c : ℚ, column_matches n c ↔ c = n.point1.x := by
    intro c
    unfold column_matches
    rw [← hv]
    constructor
    · rintro (⟨h1, h2⟩ | ⟨h1, h2⟩)
      · exact le_antisymm h2 h1
      · exact le_antisymm h1 h2
    · rintro rfl
      exact Or.inl ⟨le_refl _, le_refl _⟩
  induction cols with
  | nil => simp [hit]
  | cons c rest ih =>
    constructor
    · intro hmem
      unfold hit
      rw [if_neg]
      · exact ih.1 fun hr => hmem (List.mem_cons_of_mem _ hr)
      · rw [hmatch c]
        intro hcx
        exact hmem (hcx ▸ List.mem_cons_self _ _)
    · intro hmem
      unfold hit
      rcases List.mem_cons.mp hmem with hcx | hr
      · rw [if_pos ((hmatch c).mpr hcx.symm)]
        unfold hit_at_column
        rw [if_pos (by rw [← hv]; ring)]
      · by_cases hc : column_matches n c
        · rw [if_pos hc]
          unfold hit_at_column
          rw [if_pos (by rw [← hv]; ring)]
        · rw [if_neg hc]
          exact ih.2 hr

/-- Claim C1 amended witness: a vertical needle at x = 3 misses over
columns 1 and 2, and raises over the column set containing 3. -/
theorem vertical_needle_hit_behavior_witness :
    hit ⟨⟨3, 0⟩, ⟨3, 10⟩⟩ [(1 : ℚ), 2] = HitResult.miss ∧
      hit ⟨⟨3, 0⟩, ⟨3, 10⟩⟩ [(3 : ℚ)] = HitResult.zeroDivisionError :=
  ⟨(vertical_needle_hit_behavior ⟨⟨3, 0⟩, ⟨3, 10⟩⟩ [(1 : ℚ), 2] rfl).1
      (by norm_num),
    (vertical_needle_hit_behavior ⟨⟨3, 0⟩, ⟨3, 10⟩⟩ [(3 : ℚ)] rfl).2
      (by norm_num)⟩

/-- The module-level constant `default_target_fps = 100` of `main.py`. -/
def default_target_fps : ℤ := 100

/-- Python's `int()` applied to a float value (modelled exactly as a
rational): truncation toward zero. -/
def pyInt (q : ℚ) : ℤ :=
  if 0 ≤ q then ⌊q⌋ else ⌈q⌉

/-- Outcome of the Python float power `default_target_fps ** e`:
either a finite float (modelled by its exact rational value, since
every finite IEEE double is rational) or a raised `OverflowError`. -/
inductive PowOutcome where
  | ok : ℚ → PowOutcome
  | overflow : PowOutcome
deriving DecidableEq, Repr

/-- The `get_rates` function of `main.py`, parameterised by the float
power computation `powf` (see `PowOutcome`). The first component is
`drops_per_frame`; the second is `target_fps`. Mirrors the source: the
`drops_left == 0` guard, the `<= 100` branch, the `int(drops_left / 10)`
truncation, the `try` block whose exponent `0.75 * drops_left -
100 / drops_left` raises `ZeroDivisionError` when `drops_left == 0`
(handled by falling back to `default_target_fps`), the `OverflowError`
handler setting `target_fps = 0` (no fps cap), and the `int(... + 9)`
truncation on success. -/
def get_rates (powf : ℚ → PowOutcome) (drops_left : ℤ) : ℤ × ℤ :=
  let drops_per_frame : ℤ :=
    if drops_left = 0 then 0
    else if drops_left ≤ 100 then 1
    else pyInt ((drops_left : ℚ) / 10)
  let target_fps : ℤ :=
    if drops_left = 0 then default_target_fps
    else
      match powf ((3 : ℚ) / 4 * (drops_left : ℚ) - 100 / (drops_left : ℚ)) with
      | PowOutcome.overflow => 0
      | PowOutcome.ok v => pyInt (v + 9)
  (drops_per_frame, target_fps)

/-- The value `pygame.time.Clock.tick` treats as the absence of a
frame-rate cap; the `OverflowError` handler in `get_rates` sets
`target_fps` to it (the source logs `removing fps limit`). -/
def uncapped_fps : ℤ := 0

/-- Truncation toward zero agrees with the floor on nonnegative
arguments. -/
theorem pyInt_eq_floor_of_nonneg (q : ℚ) (h : 0 ≤ q) : pyInt q = ⌊q⌋ :=
  if_pos h

/-- Claim C4: for every nonnegative `drops_left` and every outcome of
the power computation, `drops_per_frame` is 0 at 0, 1 up to 100, and
the floor of `drops_left / 10` above 100. -/
theorem drops_per_frame_spec (powf : ℚ → PowOutcome) (d : ℤ) (hd : 0 ≤ d) :
    (get_rates powf d).1 =
      if d = 0 then 0
      else if d ≤ 100 then 1
      else ⌊(d : ℚ) / 10⌋ := by
  unfold get_rates
  by_cases h0 : d = 0
  · simp [h0]
  · by_cases h100 : d ≤ 100
    · simp [h0, h100]
    · have hq : (0 : ℚ) ≤ (d : ℚ) / 10 := by
        apply div_nonneg _ (by norm_num)
        exact_mod_cast hd
      simp [h0, h100, pyInt_eq_floor_of_nonneg _ hq]

/-- Claim C4 witness: at `drops_left = 1000` the controller batches
`floor(1000 / 10) = 100` drops per frame. -/
theorem drops_per_frame_spec_witness :
    (get_rates (fun _ => PowOutcome.overflow) 1000).1 =
      if (1000 : ℤ) = 0 then 0
      else if (1000 : ℤ) ≤ 100 then 1
      else ⌊((1000 : ℤ) : ℚ) / 10⌋ :=
  drops_per_frame_spec (fun _ => PowOutcome.overflow) 1000 (by norm_num)

/-- Claim C9: a positive pending drop count always yields at least one
drop per frame, and `drops_per_frame` is zero exactly when a
nonnegative `drops_left` is zero. -/
theorem drops_per_frame_pos_of_pos (powf : ℚ → PowOutcome) (d : ℤ) :
    (1 ≤ d → 1 ≤ (get_rates powf d).1) ∧
      (0 ≤ d → ((get_rates powf d).1 = 0 ↔ d = 0)) := by
  unfold get_rates
  constructor
  · intro h1
    by_cases h100 : d ≤ 100
    · simp [show d ≠ 0 by omega, h100]
    · have hq : (1 : ℚ) ≤ (d : ℚ) / 10 := by
        rw [le_div_iff₀ (by norm_num)]
        have : (100 : ℚ) < (d : ℚ) := by exact_mod_cast (by omega : (100 : ℤ) < d)
        linarith
      have hfloor : (1 : ℤ) ≤ ⌊(d : ℚ) / 10⌋ := by
        rw [Int.le_floor]
        exact_mod_cast hq
      have hnn : (0 : ℚ) ≤ (d : ℚ) / 10 := le_trans (by norm_num) hq
      simp only [show d ≠ 0 by omega, if_neg, ite_false, h100,
        pyInt_eq_floor_of_nonneg _ hnn]
      simpa using hfloor
  · intro hd
    by_cases h0 : d = 0
    · simp [h0]
    · have h1 : 1 ≤ d := by omega
      by_cases h100 : d ≤ 100
      · simp [h0, h100]
      · have hq : (1 : ℚ) ≤ (d : ℚ) / 10 := by
          rw [le_div_iff₀ (by norm_num)]
          have : (100 : ℚ) < (d : ℚ) := by exact_mod_cast (by omega : (100 : ℤ) < d)
          linarith
        have hfloor : (1 : ℤ) ≤ ⌊(d : ℚ) / 10⌋ := by
          rw [Int.le_floor]
          exact_mod_cast hq
        have hnn : (0 : ℚ) ≤ (d : ℚ) / 10 := le_trans (by norm_num) hq
        simp only [h0, ite_false, h100, pyInt_eq_floor_of_nonneg _ hnn]
        constructor
        · intro hz
          omega
        · intro hz
          exact hz.elim

/-- Claim C9 witness: one pending drop yields one drop per frame, and
the zero-iff-zero equivalence holds at 5 pending drops. -/
theorem drops_per_frame_pos_of_pos_witness :
    1 ≤ (get_rates (fun _ => PowOutcome.overflow) 1).1 ∧
      ((get_rates (fun _ => PowOutcome.overflow) 5).1 = 0 ↔ (5 : ℤ) = 0) :=
  ⟨(drops_per_frame_pos_of_pos (fun _ => PowOutcome.overflow) 1).1 (by norm_num),
    (drops_per_frame_pos_of_pos (fun _ => PowOutcome.overflow) 5).2 (by norm_num)⟩

/-- Claim C5: with zero pending drops, whatever the power computation
would do, `get_rates` returns zero drops per frame and the default
frame-rate cap: the `ZeroDivisionError` raised by `100 / drops_left`
in the exponent is caught and `target_fps` falls back to
`default_target_fps`. -/
theorem get_rates_zero (powf : ℚ → PowOutcome) :
    get_rates powf 0 = (0, default_target_fps) := by
  simp [get_rates]

/-- Claim C6: whenever the power computation raises `OverflowError`
(for any nonzero `drops_left`, since at zero the exponent raises
`ZeroDivisionError` first), `get_rates` recovers and returns the
sentinel `uncapped_fps` that `pygame` treats as the absence of a
frame-rate ceiling. -/
theorem get_rates_overflow_uncapped (powf : ℚ → PowOutcome) (d : ℤ)
    (hd : d ≠ 0)
    (hof : powf ((3 : ℚ) / 4 * (d : ℚ) - 100 / (d : ℚ)) = PowOutcome.overflow) :
    (get_rates powf d).2 = uncapped_fps := by
  simp [get_rates, hd, hof, uncapped_fps]

/-- Claim C6 witness: with 207 pending drops and a power computation
that overflows, the returned frame-rate cap is the uncapped sentinel. -/
theorem get_rates_overflow_uncapped_witness :
    (get_rates (fun _ => PowOutcome.overflow) 207).2 = uncapped_fps :=
  get_rates_overflow_uncapped (fun _ => PowOutcome.overflow) 207
    (by norm_num) rfl

/-- Claim C7: for positive `drops_left`, when the float power
`default_target_fps ** (0.75 * drops_left - 100 / drops_left)`
evaluates without overflow to the value `v`, the returned `target_fps`
is `v + 9` truncated to an integer. -/
theorem get_rates_target_fps_formula (powf : ℚ → PowOutcome) (d : ℤ) (v : ℚ)
    (hd : 0 < d)
    (hok : powf ((3 : ℚ) / 4 * (d : ℚ) - 100 / (d : ℚ)) = PowOutcome.ok v) :
    (get_rates powf d).2 = pyInt (v + 9) := by
  simp [get_rates, show d ≠ 0 by omega, hok]

/-- Claim C7 witness: with one pending drop and a power computation
returning 1/2, the returned frame-rate cap is `int(1/2 + 9) = 9`. -/
theorem get_rates_target_fps_formula_witness :
    0 < (1 : ℤ) ∧ (get_rates (fun _ => PowOutcome.ok (1 / 2)) 1).2 = pyInt (1 / 2 + 9) :=
  ⟨by norm_num,
    get_rates_target_fps_formula (fun _ => PowOutcome.ok (1 / 2)) 1 (1 / 2)
      (by norm_num) rfl⟩

/-- The `point1` computed in `TheoreticalNeedle.__init__`:
`center + (length / 2) * (cos angle, sin angle)`. The random draws of
`center` and `angle` are the function's arguments. -/
noncomputable def needle_point1 (center : ℝ × ℝ) (angle length : ℝ) : ℝ × ℝ :=
  (center.1 + length / 2 * Real.cos angle,
    center.2 + length / 2 * Real.sin angle)

/-- The `point2` computed in `TheoreticalNeedle.__init__`:
`center - (length / 2) * (cos angle, sin angle)`. -/
noncomputable def needle_point2 (center : ℝ × ℝ) (angle length : ℝ) : ℝ × ℝ :=
  (center.1 - length / 2 * Real.cos angle,
    center.2 - length / 2 * Real.sin angle)

/-- Euclidean distance between two planar points. -/
noncomputable def euclid_dist (p q : ℝ × ℝ) : ℝ :=
  Real.sqrt ((p.1 - q.1) ^ 2 + (p.2 - q.2) ^ 2)

/-- Midpoint of two planar points. -/
noncomputable def segment_midpoint (p q : ℝ × ℝ) : ℝ × ℝ :=
  ((p.1 + q.1) / 2, (p.2 + q.2) / 2)

/-- Claim C8: every generated needle's endpoints are exactly `length`
apart, and their midpoint is the needle's center. -/
theorem needle_endpoints_spec (center : ℝ × ℝ) (angle length : ℝ)
    (hl : 0 < length) :
    euclid_dist (needle_point1 center angle length)
        (needle_point2 center angle length) = length ∧
      segment_midpoint (needle_point1 center angle length)
        (needle_point2 center angle length) = center := by
  constructor
  · unfold euclid_dist needle_point1 needle_point2
    have key :
        (center.1 + length / 2 * Real.cos angle -
              (center.1 - length / 2 * Real.cos angle)) ^ 2 +
            (center.2 + length / 2 * Real.sin angle -
              (center.2 - length / 2 * Real.sin angle)) ^ 2 =
          length ^ 2 := by
      have htrig := Real.cos_sq_add_sin_sq angle
      calc (center.1 + length / 2 * Real.cos angle -
              (center.1 - length / 2 * Real.cos angle)) ^ 2 +
            (center.2 + length / 2 * Real.sin angle -
              (center.2 - length / 2 * Real.sin angle)) ^ 2
          = length ^ 2 * (Real.cos angle ^ 2 + Real.sin angle ^ 2) := by ring
        _ = length ^ 2 := by rw [htrig, mul_one]
    rw [key]
    exact Real.sqrt_sq hl.le
  · unfold segment_midpoint needle_point1 needle_point2
    ext <;> simp

/-- Claim C8 witness: the needle centered at the origin with angle 0
and length 1 has endpoints at distance 1 whose midpoint is the
origin. -/
theorem needle_endpoints_spec_witness :
    euclid_dist (needle_point1 ((0 : ℝ), (0 : ℝ)) 0 1)
        (needle_point2 ((0 : ℝ), (0 : ℝ)) 0 1) = 1 ∧
      segment_midpoint (needle_point1 ((0 : ℝ), (0 : ℝ)) 0 1)
        (needle_point2 ((0 : ℝ), (0 : ℝ)) 0 1) = ((0 : ℝ), (0 : ℝ)) :=
  needle_endpoints_spec ((0 : ℝ), (0 : ℝ)) 0 1 (by norm_num)

/-- The `hits` and `drops` counters of `main`. -/
structure SimCounters where
  drops : ℤ
  hits : ℤ
deriving DecidableEq, Repr

/-- One drop event in the loop body of `main`: `drops += 1` and
`hits += 1 if new_needle.hit else 0`. -/
def record_drop (s : SimCounters) (hit_present : Bool) : SimCounters :=
  ⟨s.drops + 1, s.hits + if hit_present then 1 else 0⟩

/-- The counter state at startup of `main` (`hits = 0`, `drops = 0`)
and after the Delete-key reset. -/
def cleared_counters : SimCounters := ⟨0, 0⟩

/-- Counter states reachable in the driving loop of `main`: the initial
state, one drop event, and the Delete-key clear (which resets both
counters to zero together). -/
inductive CountersReachable : SimCounters → Prop
  | init : CountersReachable cleared_counters
  | drop (s : SimCounters) (b : Bool) :
      CountersReachable s → CountersReachable (record_drop s b)
  | clear (s : SimCounters) :
      CountersReachable s → CountersReachable cleared_counters

/-- Claim C10: every reachable counter state satisfies
`0 ≤ hits ≤ drops`; each drop event increments `drops` by exactly one
and `hits` by at most one, by exactly one precisely when the needle's
hit is present; and the clear resets both counters to zero. -/
theorem counters_invariant :
    (∀ s : SimCounters, CountersReachable s → 0 ≤ s.hits ∧ s.hits ≤ s.drops) ∧
      (∀ (s : SimCounters) (b : Bool),
        (record_drop s b).drops = s.drops + 1 ∧
          s.hits ≤ (record_drop s b).hits ∧
          (record_drop s b).hits ≤ s.hits + 1 ∧
          ((record_drop s b).hits = s.hits + 1 ↔ b = true)) ∧
      cleared_counters.drops = 0 ∧ cleared_counters.hits = 0 := by
  refine ⟨?_, ?_, rfl, rfl⟩
  · intro s h
    induction h with
    | init => simp [cleared_counters]
    | drop s b _ ih => cases b <;> simp [record_drop] <;> omega
    | clear s _ _ => simp [cleared_counters]
  · intro s b
    cases b <;> simp [record_drop]

/-- Claim C10 witness: after one hitting drop from the cleared state,
the counters satisfy `0 ≤ hits ≤ drops`. -/
theorem counters_invariant_witness :
    0 ≤ (record_drop cleared_counters true).hits ∧
      (record_drop cleared_counters true).hits ≤
        (record_drop cleared_counters true).drops :=
  counters_invariant.1 (record_drop cleared_counters true)
    (CountersReachable.drop cleared_counters true CountersReachable.init)
